import Mathlib

/-!
Verification of the drift-detection engine of `solomon-os/go-test`.

The definitions below are a shallow embedding of the Go sources:
  * `internal/models/instance.go` — the data model (`EC2Instance`, `BlockDevice`,
    `DriftResult`, `DriftedAttr`, `DriftReport`);
  * `internal/drift/detector.go` — value extraction (`extractValue`,
    `extractBlockDeviceValue`), the equality engine (`valuesEqual`,
    `slicesEqual`, `mapsEqual`), single-instance detection (`Detect`) and
    batch detection (`DetectMultiple`).

Modelling conventions:
  * Go slices `[]string` become `Option (List String)`: `none` is the nil
    slice, `some l` a non-nil slice with elements `l`.  Go's `len` of a nil
    slice is `0`, which `goSliceElems` reflects by reading `none` as `[]`.
  * Go maps `map[string]string` become `Option (List (String × String))`
    (association list; a Go map has pairwise-distinct keys, which theorems
    assume via `Nodup` hypotheses where it matters).  A Go map read `m[k]`
    yields the zero value `""` when the key is absent or the map is nil,
    reflected by `goMapRead`.
  * `interface{}` values extracted from an instance become the closed sum
    `GoValue`; `reflect.DeepEqual` on that universe is structural equality
    (the slice/slice and map/map cases never reach it — `valuesEqual`
    intercepts them first, exactly as the Go kind checks do).
  * Go's `sort.Strings` / `sort.Slice` are modelled by `List.insertionSort`
    with the corresponding `≤`: any Go sort output is sorted and a
    permutation of the input, which is all the theorems use.
  * A `context.Context` is modelled by a single `canceled : Bool` flag: the
    claims under check concern contexts whose cancellation state is fixed
    for the whole batch call (in particular a context already canceled
    before invocation, and a never-canceled context).
  * Goroutine scheduling in `DetectMultiple` only permutes the multiset of
    collected results (each goroutine sends exactly one result on the
    buffered channel, and the final list is sorted); the embedding
    therefore collects results by mapping over the iteration order of the
    actual-state map, and theorems quantify over that order.
-/

namespace DriftGo

/-- `models.BlockDevice` from `internal/models/instance.go`. -/
structure BlockDevice where
  volumeSize : Int
  volumeType : String
  deleteOnTermination : Bool
  encrypted : Bool
  iops : Int
  throughput : Int
deriving DecidableEq, Repr

/-- `models.EC2Instance` from `internal/models/instance.go`.
`securityGroups` and `tags` keep Go's nil/non-nil distinction. -/
structure EC2Instance where
  instanceID : String
  instanceType : String
  ami : String
  availabilityZone : String
  subnetID : String
  vpcID : String
  privateIP : String
  publicIP : String
  keyName : String
  securityGroups : Option (List String)
  tags : Option (List (String × String))
  rootBlockDevice : BlockDevice
  ebsOptimized : Bool
  monitoring : Bool
  iamInstanceProfile : String
deriving DecidableEq, Repr

/-- The universe of `interface{}` values the detector extracts and compares:
strings, bools, ints, `[]string` slices (nil or not), `map[string]string`
maps (nil or not), `BlockDevice` structs, and the untyped nil interface. -/
inductive GoValue where
  | vnil
  | str (s : String)
  | bool (b : Bool)
  | int (n : Int)
  | strSlice (l : Option (List String))
  | strMap (m : Option (List (String × String)))
  | blockDev (bd : BlockDevice)
deriving DecidableEq, Repr

/-- Association-list read modelling a Go map read `m[k]` before applying the
zero-value default: the first binding of the key, if any. -/
def goAssoc {α : Type} : List (String × α) → String → Option α
  | [], _ => none
  | kv :: rest, key => if key = kv.1 then some kv.2 else goAssoc rest key

/-- A Go map read `m[k]` on a `map[string]string`: the bound value, or the
zero value `""` when the key is absent or the map is nil. -/
def goMapRead (m : Option (List (String × String))) (k : String) : String :=
  match m with
  | none => ""
  | some l => (goAssoc l k).getD ""

/-- Elements of a Go `[]string`: a nil slice has none. -/
def goSliceElems (o : Option (List String)) : List String :=
  o.getD []

/-- Entries of a Go `map[string]string`: a nil map has none. -/
def goMapEntries (o : Option (List (String × String))) : List (String × String) :=
  o.getD []

/-- Lexicographic order on character lists: the order of Go's string
comparison (Go compares UTF-8 bytes; UTF-8 byte order agrees with
codepoint order). -/
def charListLE : List Char → List Char → Bool
  | [], _ => true
  | _ :: _, [] => false
  | a :: as, b :: bs =>
    if a < b then true
    else if b < a then false
    else charListLE as bs

/-- Go's `<=` on strings, structurally on the character data. -/
def strLE (a b : String) : Bool :=
  charListLE a.data b.data

/-- The string order used by `sort.Strings` and the report sort, as a
relation. -/
def goStrLE (a b : String) : Prop :=
  strLE a b = true

instance : DecidableRel goStrLE := fun a b =>
  inferInstanceAs (Decidable (strLE a b = true))

/-- `(*DefaultDetector).slicesEqual` from `internal/drift/detector.go`
(both arguments already known to be `[]string`): equal lengths, then sort
both copies with `sort.Strings` and compare elementwise — elementwise
equality of equal-length lists is list equality, and any `sort.Strings`
output is the unique `goStrLE`-sorted permutation of its input. -/
def slicesEqual (a b : Option (List String)) : Bool :=
  let aSlice := goSliceElems a
  let bSlice := goSliceElems b
  if aSlice.length ≠ bSlice.length then false
  else
    List.insertionSort goStrLE aSlice == List.insertionSort goStrLE bSlice

/-- `(*DefaultDetector).mapsEqual` from `internal/drift/detector.go`
(both arguments already known to be `map[string]string`): equal lengths,
then every entry `(k, v)` of `a` must satisfy `b[k] == v`, where the map
read defaults to `""` for an absent key. -/
def mapsEqual (a b : Option (List (String × String))) : Bool :=
  let aMap := goMapEntries a
  let bMap := goMapEntries b
  if aMap.length ≠ bMap.length then false
  else aMap.all fun kv => ((goAssoc bMap kv.1).getD "") == kv.2

/-- `(*DefaultDetector).valuesEqual` from `internal/drift/detector.go`:
nil checks, then kind dispatch to `slicesEqual` / `mapsEqual`, otherwise
`reflect.DeepEqual` — structural equality on this universe (the slice/slice
and map/map cases are intercepted above, as in the Go kind checks). -/
def valuesEqual : GoValue → GoValue → Bool
  | .vnil, .vnil => true
  | .vnil, _ => false
  | _, .vnil => false
  | .strSlice a, .strSlice b => slicesEqual a b
  | .strMap a, .strMap b => mapsEqual a b
  | a, b => a == b

/-- Extraction failures of `extractValue` / `extractBlockDeviceValue`
(`fmt.Errorf` values in the Go source; the spec's taxonomy names
`emptyPath` "InvalidPath" and the two unknown cases "UnknownAttribute"). -/
inductive ExtractError where
  | emptyPath
  | unknownAttribute (s : String)
  | unknownBlockDeviceAttribute (s : String)
deriving DecidableEq, Repr

/-- The `fieldMap` literal inside `extractValue`: recognized single-segment
field names and their accessors. -/
def fieldMapLookup (s : String) : Option (EC2Instance → GoValue) :=
  if s = "instance_type" then some fun i => .str i.instanceType
  else if s = "ami" then some fun i => .str i.ami
  else if s = "availability_zone" then some fun i => .str i.availabilityZone
  else if s = "subnet_id" then some fun i => .str i.subnetID
  else if s = "vpc_id" then some fun i => .str i.vpcID
  else if s = "private_ip" then some fun i => .str i.privateIP
  else if s = "public_ip" then some fun i => .str i.publicIP
  else if s = "key_name" then some fun i => .str i.keyName
  else if s = "security_groups" then some fun i => .strSlice i.securityGroups
  else if s = "tags" then some fun i => .strMap i.tags
  else if s = "ebs_optimized" then some fun i => .bool i.ebsOptimized
  else if s = "monitoring" then some fun i => .bool i.monitoring
  else if s = "iam_instance_profile" then some fun i => .str i.iamInstanceProfile
  else none

/-- `(*DefaultDetector).extractBlockDeviceValue` from
`internal/drift/detector.go`: the switch over the six recognized
sub-fields of the root block device. -/
def extractBlockDeviceValue (bd : BlockDevice) (field : String) :
    Except ExtractError GoValue :=
  if field = "volume_size" then .ok (.int bd.volumeSize)
  else if field = "volume_type" then .ok (.str bd.volumeType)
  else if field = "delete_on_termination" then .ok (.bool bd.deleteOnTermination)
  else if field = "encrypted" then .ok (.bool bd.encrypted)
  else if field = "iops" then .ok (.int bd.iops)
  else if field = "throughput" then .ok (.int bd.throughput)
  else .error (.unknownBlockDeviceAttribute field)

/-- `(*DefaultDetector).extractValue` from `internal/drift/detector.go`:
empty-path check, then the `root_block_device` branch (bare path returns
the whole sub-record; otherwise dispatch on the second segment, further
segments ignored), then the `tags.<key>` branch (map read with `""`
default, never an error), then the `fieldMap` lookup. -/
def extractValue (i : EC2Instance) (path : List String) :
    Except ExtractError GoValue :=
  match path with
  | [] => .error .emptyPath
  | p0 :: rest =>
    if p0 = "root_block_device" then
      match rest with
      | [] => .ok (.blockDev i.rootBlockDevice)
      | f :: _ => extractBlockDeviceValue i.rootBlockDevice f
    else if p0 = "tags" ∧ rest ≠ [] then
      .ok (.str (goMapRead i.tags (rest.headD "")))
    else
      match fieldMapLookup p0 with
      | none => .error (.unknownAttribute p0)
      | some getter => .ok (getter i)

/-- Go's `strings.Split` with a one-character separator, structurally
recursive on the character list: splitting `""` yields `[""]`, and every
separator occurrence starts a new group (empty groups kept). -/
def splitChars (sep : Char) : List Char → List (List Char)
  | [] => [[]]
  | c :: rest =>
    if c = sep then [] :: splitChars sep rest
    else
      match splitChars sep rest with
      | [] => [[c]]
      | g :: gs => (c :: g) :: gs

/-- `strings.Split(attr, ".")` on a Lean string. -/
def goSplitDot (s : String) : List String :=
  (splitChars '.' s.data).map (fun cs => String.mk cs)

/-- `(*DefaultDetector).getAttributeValues` from `internal/drift/detector.go`:
split the attribute on `"."` (Go's `strings.Split`, which sends `""`
to `[""]`), extract from both sides, fail if either side fails. -/
def getAttributeValues (aws tf : EC2Instance) (attr : String) :
    Except ExtractError (GoValue × GoValue) := do
  let parts := goSplitDot attr
  let awsValue ← extractValue aws parts
  let tfValue ← extractValue tf parts
  return (awsValue, tfValue)

/-- `models.DriftedAttr` from `internal/models/instance.go`. -/
structure DriftedAttr where
  path : String
  awsValue : GoValue
  terraformValue : GoValue
deriving DecidableEq, Repr

/-- `models.DriftResult` from `internal/models/instance.go` (`error` is the
Go `Error string` field, `""` when unset). -/
structure DriftResult where
  instanceID : String
  hasDrift : Bool
  driftedAttrs : List DriftedAttr
  error : String
deriving DecidableEq, Repr

/-- `models.DriftReport` from `internal/models/instance.go`. -/
structure DriftReport where
  totalInstances : Nat
  driftedInstances : Nat
  results : List DriftResult
deriving DecidableEq, Repr

/-- `DefaultAttributes` from `internal/drift/detector.go`. -/
def DefaultAttributes : List String :=
  ["instance_type", "ami", "availability_zone", "subnet_id",
   "security_groups", "tags", "key_name", "ebs_optimized", "monitoring",
   "iam_instance_profile", "root_block_device.volume_size",
   "root_block_device.volume_type", "root_block_device.encrypted"]

/-- One iteration of the attribute loop in `(*DefaultDetector).Detect`:
extraction failure skips the attribute; a successful extraction with
unequal values appends a `DriftedAttr` and sets the drift flag. -/
def detectStep (aws tf : EC2Instance) (r : DriftResult) (attr : String) :
    DriftResult :=
  match getAttributeValues aws tf attr with
  | .error _ => r
  | .ok (awsValue, tfValue) =>
    if valuesEqual awsValue tfValue then r
    else
      { r with hasDrift := true,
               driftedAttrs := r.driftedAttrs ++
                 [⟨attr, awsValue, tfValue⟩] }

/-- `(*DefaultDetector).Detect` from `internal/drift/detector.go`: start
from the aws-side identifier with no drift, then fold the attribute list
in order. -/
def Detect (attrs : List String) (aws tf : EC2Instance) : DriftResult :=
  attrs.foldl (detectStep aws tf) ⟨aws.instanceID, false, [], ""⟩

/-- The body of one goroutine of `(*DefaultDetector).DetectMultiple`: if the
context is canceled, a canceled marker result; else if the identifier has no
counterpart in the Terraform map, a forced-drift not-found result; else the
single-instance `Detect` result. -/
def detectOne (attrs : List String) (canceled : Bool)
    (tfInstances : List (String × EC2Instance))
    (entry : String × EC2Instance) : DriftResult :=
  if canceled then
    ⟨entry.1, false, [], "context canceled"⟩
  else
    match goAssoc tfInstances entry.1 with
    | none => ⟨entry.1, true, [], "instance not found in Terraform state"⟩
    | some tfInst => Detect attrs entry.2 tfInst

/-- Order on results used by the final `sort.Slice` of `DetectMultiple`
(ascending instance identifier). -/
def resultLE (a b : DriftResult) : Prop :=
  goStrLE a.instanceID b.instanceID

instance : DecidableRel resultLE := fun a b =>
  inferInstanceAs (Decidable (strLE a.instanceID b.instanceID = true))

/-- `(*DefaultDetector).DetectMultiple` from `internal/drift/detector.go`:
one goroutine per actual-state entry sends exactly one result on a buffered
channel; the collection loop drains them all, counting drifted results; the
list is then sorted ascending by instance identifier.  `awsInstances` and
`tfInstances` are the two Go maps as association lists (quantifying over
the list order covers Go's nondeterministic map iteration and channel
completion order, which only permute the collected multiset). -/
def DetectMultiple (attrs : List String) (canceled : Bool)
    (awsInstances tfInstances : List (String × EC2Instance)) : DriftReport :=
  let collected := awsInstances.map (detectOne attrs canceled tfInstances)
  { totalInstances := awsInstances.length
    driftedInstances := collected.countP (·.hasDrift)
    results := List.insertionSort resultLE collected }

/-- The contribution of one attribute to `Detect`: `none` when extraction
fails on either side or the values compare equal, otherwise the appended
`DriftedAttr`.  `Detect`'s loop is exactly a `filterMap` of this function
(proved below). -/
def driftEntry (aws tf : EC2Instance) (attr : String) : Option DriftedAttr :=
  match getAttributeValues aws tf attr with
  | .error _ => none
  | .ok (awsValue, tfValue) =>
    if valuesEqual awsValue tfValue then none
    else some ⟨attr, awsValue, tfValue⟩

/-- An attribute at which the two records differ: extraction succeeds on
both sides and the values compare unequal. -/
def attrDrifts (aws tf : EC2Instance) (attr : String) : Bool :=
  (driftEntry aws tf attr).isSome

/-- The six recognized sub-fields of `root_block_device`
(the cases of `extractBlockDeviceValue`). -/
def blockDeviceFields : List String :=
  ["volume_size", "volume_type", "delete_on_termination", "encrypted",
   "iops", "throughput"]

/-- The recognized attribute paths (spec §4.1): a recognized single-segment
field name, bare `root_block_device`, `tags.<key>`, or
`root_block_device.<field>` with a recognized sub-field. -/
def RecognizedPath (p : List String) : Prop :=
  (∃ s, p = [s] ∧ (fieldMapLookup s).isSome) ∨
  p = ["root_block_device"] ∨
  (∃ k, p = ["tags", k]) ∨
  (∃ f, p = ["root_block_device", f] ∧ f ∈ blockDeviceFields)

/-- Status of one goroutine of `DetectMultiple`'s fan-out loop
(`internal/drift/detector.go`, the `for instanceID, awsInst := range`
loop): not yet scheduled, executing, or returned. -/
inductive TaskStatus where
  | notStarted
  | running
  | finished
deriving DecidableEq, Repr

/-- Scheduler step relation for `DetectMultiple`'s fan-out: `start` moves a
goroutine into execution — the `go func(...)` launch in the source is
unconditional, with no semaphore or pool-slot acquisition guarding it
(the bounded `worker.Pool` of `internal/worker` is never invoked there) —
and `finish` retires a running goroutine. -/
inductive SpawnStep : List TaskStatus → List TaskStatus → Prop where
  | start (l r : List TaskStatus) :
      SpawnStep (l ++ TaskStatus.notStarted :: r) (l ++ TaskStatus.running :: r)
  | finish (l r : List TaskStatus) :
      SpawnStep (l ++ TaskStatus.running :: r) (l ++ TaskStatus.finished :: r)

/-- Reachability under the fan-out scheduler. -/
def SpawnReachable : List TaskStatus → List TaskStatus → Prop :=
  Relation.ReflTransGen SpawnStep

/-- Number of simultaneously executing evaluation goroutines in a state. -/
def runningCount (s : List TaskStatus) : Nat :=
  s.countP (· == TaskStatus.running)

/-- A sample block device (the spec's `VolumeSize=100` example). -/
def sampleBD : BlockDevice :=
  ⟨100, "gp3", true, false, 3000, 125⟩

/-- A sample instance used to instantiate hypothesis-bearing theorems. -/
def sampleInst : EC2Instance :=
  ⟨"i-aaa", "t2.micro", "ami-1", "us-east-1a", "subnet-1", "vpc-1",
   "10.0.0.1", "54.0.0.1", "key-1", some ["sg-1"], some [("Name", "x")],
   sampleBD, false, false, "profile-1"⟩

/-- `sampleInst` with a different instance type (one drifted attribute). -/
def sampleInstDrifted : EC2Instance :=
  { sampleInst with instanceID := "i-bbb", instanceType := "t2.large" }

/-- `sampleInst` under a third identifier, absent from the desired state. -/
def sampleInstAbsent : EC2Instance :=
  { sampleInst with instanceID := "i-ccc" }

/-- The spec's three-instance batch example: one identical in desired
state, one differing, one absent. -/
def exampleActual : List (String × EC2Instance) :=
  [("i-aaa", sampleInst), ("i-bbb", sampleInstDrifted),
   ("i-ccc", sampleInstAbsent)]

/-- Desired state for `exampleActual`: `i-aaa` identical, `i-bbb` declared
with the original instance type, `i-ccc` absent. -/
def exampleDesired : List (String × EC2Instance) :=
  [("i-aaa", sampleInst), ("i-bbb", { sampleInst with instanceID := "i-bbb" })]

/-- An instance whose tag map is nil. -/
def tagAbsentInst : EC2Instance :=
  { sampleInst with instanceID := "i-ta", tags := none }

/-- An instance carrying the tag `Env` with an empty value. -/
def tagEmptyInst : EC2Instance :=
  { sampleInst with instanceID := "i-te", tags := some [("Env", "")] }

/-! ### Helper lemmas -/

/-- A successful association-list read returns a binding of the list. -/
theorem goAssoc_mem {α : Type} {l : List (String × α)} {k : String} {v : α}
    (h : goAssoc l k = some v) : (k, v) ∈ l := by
  induction l with
  | nil => simp [goAssoc] at h
  | cons kv rest ih =>
    by_cases hk : k = kv.1
    · rw [goAssoc, if_pos hk] at h
      injection h with h
      have hkv : (k, v) = kv := by
        obtain ⟨k1, v1⟩ := kv
        simp only [Prod.mk.injEq]
        exact ⟨hk, h.symm⟩
      rw [hkv]
      exact List.mem_cons_self _ _
    · rw [goAssoc, if_neg hk] at h
      exact List.mem_cons_of_mem _ (ih h)

/-- With pairwise-distinct keys, every binding is read back. -/
theorem goAssoc_eq_some_of_mem {α : Type} {l : List (String × α)} {k : String}
    {v : α} (hnd : (l.map Prod.fst).Nodup) (hm : (k, v) ∈ l) :
    goAssoc l k = some v := by
  induction l with
  | nil => simp at hm
  | cons kv rest ih =>
    rw [List.map_cons, List.nodup_cons] at hnd
    rw [List.mem_cons] at hm
    rcases hm with hm | hm
    · subst hm
      rw [goAssoc, if_pos rfl]
    · have hk : k ≠ kv.1 := by
        intro he
        exact hnd.1 (he ▸ (List.mem_map_of_mem Prod.fst hm))
      rw [goAssoc, if_neg hk]
      exact ih hnd.2 hm

/-- A key reads back some value exactly when it occurs among the keys. -/
theorem goAssoc_isSome_iff {α : Type} (l : List (String × α)) (k : String) :
    (goAssoc l k).isSome = true ↔ k ∈ l.map Prod.fst := by
  induction l with
  | nil => simp [goAssoc]
  | cons kv rest ih =>
    by_cases hk : k = kv.1
    · simp [goAssoc, if_pos hk, hk]
    · simp [goAssoc, if_neg hk, hk, ih]

/-- The Go string order is total. -/
theorem charListLE_total : ∀ a b : List Char,
    charListLE a b = true ∨ charListLE b a = true
  | [], _ => Or.inl rfl
  | _ :: _, [] => Or.inr rfl
  | a :: as, b :: bs => by
    rcases lt_trichotomy a b with h | h | h
    · left
      simp [charListLE, h]
    · subst h
      simpa [charListLE, lt_irrefl] using charListLE_total as bs
    · right
      simp [charListLE, h]

/-- The Go string order is transitive. -/
theorem charListLE_trans : ∀ a b c : List Char,
    charListLE a b = true → charListLE b c = true → charListLE a c = true
  | [], _, _, _, _ => rfl
  | _ :: _, [], _, h1, _ => by simp [charListLE] at h1
  | _ :: _, _ :: _, [], _, h2 => by simp [charListLE] at h2
  | a :: as, b :: bs, c :: cs, h1, h2 => by
    by_cases hab : a < b
    · by_cases hbc : b < c
      · simp [charListLE, lt_trans hab hbc]
      · by_cases hcb : c < b
        · simp [charListLE, hbc, hcb] at h2
        · have hbc2 : b = c := le_antisymm (not_lt.mp hcb) (not_lt.mp hbc)
          subst hbc2
          simp [charListLE, hab]
    · by_cases hba : b < a
      · simp [charListLE, hab, hba] at h1
      · have hab2 : a = b := le_antisymm (not_lt.mp hba) (not_lt.mp hab)
        subst hab2
        simp only [charListLE, lt_irrefl, if_neg (lt_irrefl a).elim,
          if_false] at h1
        by_cases hac : a < c
        · simp [charListLE, hac]
        · by_cases hca : c < a
          · simp [charListLE, hac, hca] at h2
          · have hac2 : a = c := le_antisymm (not_lt.mp hca) (not_lt.mp hac)
            subst hac2
            simp only [charListLE, lt_irrefl, if_neg (lt_irrefl a).elim,
              if_false] at h2 ⊢
            exact charListLE_trans as bs cs h1 h2

/-- The Go string order is antisymmetric. -/
theorem charListLE_antisymm : ∀ a b : List Char,
    charListLE a b = true → charListLE b a = true → a = b
  | [], [], _, _ => rfl
  | [], _ :: _, _, h2 => by simp [charListLE] at h2
  | _ :: _, [], h1, _ => by simp [charListLE] at h1
  | a :: as, b :: bs, h1, h2 => by
    by_cases hab : a < b
    · simp [charListLE, hab, lt_asymm hab] at h2
    · by_cases hba : b < a
      · simp [charListLE, hab, hba] at h1
      · have he : a = b := le_antisymm (not_lt.mp hba) (not_lt.mp hab)
        subst he
        simp only [charListLE, lt_irrefl, if_neg (lt_irrefl a).elim,
          if_false] at h1 h2
        rw [charListLE_antisymm as bs h1 h2]

/-- An unbound key reads back `none`. -/
theorem goAssoc_eq_none {α : Type} {l : List (String × α)} {k : String}
    (h : ¬ k ∈ l.map Prod.fst) : goAssoc l k = none := by
  cases hg : goAssoc l k with
  | none => rfl
  | some w =>
    exact absurd ((goAssoc_isSome_iff l k).mp (by rw [hg]; rfl)) h

/-- `detectStep` in terms of `driftEntry`. -/
theorem detectStep_eq (aws tf : EC2Instance) (r : DriftResult) (attr : String) :
    detectStep aws tf r attr =
      match driftEntry aws tf attr with
      | none => r
      | some e => { r with hasDrift := true,
                           driftedAttrs := r.driftedAttrs ++ [e] } := by
  unfold detectStep driftEntry
  cases getAttributeValues aws tf attr with
  | error e => rfl
  | ok p =>
    obtain ⟨av, tv⟩ := p
    by_cases h : valuesEqual av tv = true <;> simp [h]

/-- The attribute loop of `Detect` is a `filterMap` of `driftEntry`,
appended to the accumulator. -/
theorem detect_foldl (aws tf : EC2Instance) (attrs : List String)
    (r : DriftResult) :
    attrs.foldl (detectStep aws tf) r =
      { r with
        hasDrift := r.hasDrift || !(attrs.filterMap (driftEntry aws tf)).isEmpty,
        driftedAttrs := r.driftedAttrs ++ attrs.filterMap (driftEntry aws tf) } := by
  induction attrs generalizing r with
  | nil => simp
  | cons a as ih =>
    rw [List.foldl_cons, detectStep_eq]
    cases h : driftEntry aws tf a with
    | none => rw [ih, List.filterMap_cons, h]
    | some e => rw [ih, List.filterMap_cons, h]; simp

/-- Closed form of `Detect`: the aws-side identifier, the drifted attributes
as a `filterMap` in configured order, the drift flag as their nonemptiness,
and an unset error string. -/
theorem Detect_eq (attrs : List String) (aws tf : EC2Instance) :
    Detect attrs aws tf =
      ⟨aws.instanceID, !(attrs.filterMap (driftEntry aws tf)).isEmpty,
       attrs.filterMap (driftEntry aws tf), ""⟩ := by
  unfold Detect
  rw [detect_foldl]
  simp

/-- A produced drift entry names the attribute it came from. -/
theorem driftEntry_path {aws tf : EC2Instance} {attr : String}
    {e : DriftedAttr} (h : driftEntry aws tf attr = some e) : e.path = attr := by
  cases hg : getAttributeValues aws tf attr with
  | error err =>
    rw [driftEntry, hg] at h
    replace h : (none : Option DriftedAttr) = some e := h
    simp at h
  | ok p =>
    obtain ⟨av, tv⟩ := p
    rw [driftEntry, hg] at h
    replace h : (if valuesEqual av tv = true then none
                 else some ⟨attr, av, tv⟩) = some e := h
    by_cases hv : valuesEqual av tv = true
    · rw [if_pos hv] at h
      simp at h
    · rw [if_neg hv] at h
      injection h with h
      rw [← h]

/-- The paths of the drifted attributes are exactly the differing
attributes, in configured order. -/
theorem driftedAttrs_paths (aws tf : EC2Instance) (attrs : List String) :
    (attrs.filterMap (driftEntry aws tf)).map DriftedAttr.path
      = attrs.filter (attrDrifts aws tf) := by
  induction attrs with
  | nil => rfl
  | cons a as ih =>
    rw [List.filterMap_cons, List.filter_cons]
    cases h : driftEntry aws tf a with
    | none => simp [attrDrifts, h, ih]
    | some e => simp [attrDrifts, h, ih, driftEntry_path h]

/-- A drift entry is not produced when extraction succeeds with equal
values. -/
theorem driftEntry_eq_none_of_equal {aws tf : EC2Instance} {attr : String}
    (av tv : GoValue) (hok : getAttributeValues aws tf attr = .ok (av, tv))
    (hv : valuesEqual av tv = true) : driftEntry aws tf attr = none := by
  rw [driftEntry, hok]
  show (if valuesEqual av tv = true then none
        else some ⟨attr, av, tv⟩) = (none : Option DriftedAttr)
  rw [if_pos hv]

/-- `goMapRead` through `goMapEntries`: a nil map reads like an empty one. -/
theorem goMapRead_eq (m : Option (List (String × String))) (k : String) :
    goMapRead m k = (goAssoc (goMapEntries m) k).getD "" := by
  cases m <;> rfl

/-- The three projections of `DetectMultiple`. -/
theorem detectMultiple_results (attrs : List String) (canceled : Bool)
    (awsInstances tfInstances : List (String × EC2Instance)) :
    (DetectMultiple attrs canceled awsInstances tfInstances).results
      = List.insertionSort resultLE
          (awsInstances.map (detectOne attrs canceled tfInstances)) := rfl

theorem detectMultiple_driftedCount (attrs : List String) (canceled : Bool)
    (awsInstances tfInstances : List (String × EC2Instance)) :
    (DetectMultiple attrs canceled awsInstances tfInstances).driftedInstances
      = (awsInstances.map (detectOne attrs canceled tfInstances)).countP
          (·.hasDrift) := rfl

theorem detectMultiple_totalCount (attrs : List String) (canceled : Bool)
    (awsInstances tfInstances : List (String × EC2Instance)) :
    (DetectMultiple attrs canceled awsInstances tfInstances).totalInstances
      = awsInstances.length := rfl

/-- The sorted result list is a permutation of the collected results. -/
theorem detectMultiple_results_perm (attrs : List String) (canceled : Bool)
    (awsInstances tfInstances : List (String × EC2Instance)) :
    ((DetectMultiple attrs canceled awsInstances tfInstances).results).Perm
      (awsInstances.map (detectOne attrs canceled tfInstances)) := by
  rw [detectMultiple_results]
  exact List.perm_insertionSort _ _

/-- When the actual-state entry is keyed by its record's identifier, the
produced result carries that identifier, whatever branch is taken. -/
theorem detectOne_instanceID {attrs : List String} {canceled : Bool}
    {tfInstances : List (String × EC2Instance)} {entry : String × EC2Instance}
    (h : entry.2.instanceID = entry.1) :
    (detectOne attrs canceled tfInstances entry).instanceID = entry.1 := by
  unfold detectOne
  cases canceled with
  | true => rfl
  | false =>
    cases hg : goAssoc tfInstances entry.1 with
    | none => rfl
    | some tf => simp [Detect_eq, h]

/-- Every produced result is a success, a cancellation marker, or a
not-found marker. -/
theorem detectOne_error (attrs : List String) (canceled : Bool)
    (tfInstances : List (String × EC2Instance))
    (entry : String × EC2Instance) :
    (detectOne attrs canceled tfInstances entry).error = "" ∨
    (detectOne attrs canceled tfInstances entry).error = "context canceled" ∨
    (detectOne attrs canceled tfInstances entry).error
      = "instance not found in Terraform state" := by
  unfold detectOne
  cases canceled with
  | true => right; left; rfl
  | false =>
    cases hg : goAssoc tfInstances entry.1 with
    | none => right; right; rfl
    | some tf => left; simp [Detect_eq]

/-- Starting every task: from all-pending, the unguarded fan-out can reach
the state where every task runs at once. -/
theorem spawn_all (m : Nat) (pre : List TaskStatus) :
    SpawnReachable (pre ++ List.replicate m TaskStatus.notStarted)
      (pre ++ List.replicate m TaskStatus.running) := by
  induction m generalizing pre with
  | zero => exact Relation.ReflTransGen.refl
  | succ m ih =>
    refine Relation.ReflTransGen.head
      (SpawnStep.start pre (List.replicate m TaskStatus.notStarted)) ?_
    have h2 := ih (pre ++ [TaskStatus.running])
    simpa [List.append_assoc, List.replicate_succ] using h2

/-- Counting running tasks in the all-running state. -/
theorem runningCount_replicate (n : Nat) :
    runningCount (List.replicate n TaskStatus.running) = n := by
  induction n with
  | zero => rfl
  | succ n ih =>
    rw [List.replicate_succ, runningCount, List.countP_cons]
    rw [runningCount] at ih
    simp [ih]

/-! ### Claim theorems -/

/-- C2: for every input to `DetectMultiple` — every attribute list,
cancellation state, and iteration order of the two instance maps (the
order quantifies over Go's nondeterministic map iteration and goroutine
completion order) — the `results` list of the returned report is sorted
ascending by instance identifier. -/
theorem detectMultiple_results_sorted (attrs : List String) (canceled : Bool)
    (awsInstances tfInstances : List (String × EC2Instance)) :
    List.Pairwise (fun a b : DriftResult => goStrLE a.instanceID b.instanceID)
      (DetectMultiple attrs canceled awsInstances tfInstances).results := by
  rw [detectMultiple_results]
  haveI : IsTotal DriftResult resultLE :=
    ⟨fun a b => charListLE_total a.instanceID.data b.instanceID.data⟩
  haveI : IsTrans DriftResult resultLE :=
    ⟨fun a b c h1 h2 =>
      charListLE_trans a.instanceID.data b.instanceID.data c.instanceID.data
        h1 h2⟩
  exact List.sorted_insertionSort resultLE _

/-- C3 (against the claim): the fan-out of `DetectMultiple` launches one
goroutine per actual-state entry with no admission guard — the bounded
`worker.Pool` is never consulted — so for every batch size `n` the
scheduler can reach a state where all `n` evaluation tasks execute
simultaneously; in particular with two instances the simultaneous-task
count reaches 2, exceeding a cap of 1. -/
theorem batch_fanout_exceeds_any_cap :
    (∀ n : Nat, SpawnReachable (List.replicate n TaskStatus.notStarted)
        (List.replicate n TaskStatus.running)) ∧
    (∀ n : Nat, runningCount (List.replicate n TaskStatus.running) = n) ∧
    SpawnReachable [TaskStatus.notStarted, TaskStatus.notStarted]
      [TaskStatus.running, TaskStatus.running] ∧
    1 < runningCount [TaskStatus.running, TaskStatus.running] := by
  refine ⟨fun n => spawn_all n [], runningCount_replicate, spawn_all 2 [], ?_⟩
  decide

/-- C10: the equality engine judges a nil string list equal to an empty
string list and a nil string map equal to an empty map (both have length
zero), so an instance whose collection fields are unset never shows drift
against one whose collections are explicitly empty, over the default
attribute set. -/
theorem nil_empty_collections_no_drift (i : EC2Instance) :
    valuesEqual (.strSlice none) (.strSlice (some [])) = true ∧
    valuesEqual (.strMap none) (.strMap (some [])) = true ∧
    (goSliceElems none).length = 0 ∧
    (goMapEntries (none : Option (List (String × String)))).length = 0 ∧
    (Detect DefaultAttributes
        { i with securityGroups := none, tags := none }
        { i with securityGroups := some [], tags := some [] }).hasDrift
      = false := by
  refine ⟨by decide, by decide, rfl, rfl, ?_⟩
  rw [Detect_eq]
  have hnil : DefaultAttributes.filterMap
      (driftEntry { i with securityGroups := none, tags := none }
        { i with securityGroups := some [], tags := some [] }) = [] := by
    rw [List.filterMap_eq_nil_iff]
    intro attr hmem
    simp only [DefaultAttributes, List.mem_cons, List.not_mem_nil,
      or_false] at hmem
    rcases hmem with rfl | rfl | rfl | rfl | rfl | rfl | rfl | rfl | rfl |
      rfl | rfl | rfl | rfl
    · exact driftEntry_eq_none_of_equal (.str i.instanceType)
        (.str i.instanceType) rfl (beq_self_eq_true' _)
    · exact driftEntry_eq_none_of_equal (.str i.ami) (.str i.ami) rfl
        (beq_self_eq_true' _)
    · exact driftEntry_eq_none_of_equal (.str i.availabilityZone)
        (.str i.availabilityZone) rfl (beq_self_eq_true' _)
    · exact driftEntry_eq_none_of_equal (.str i.subnetID) (.str i.subnetID)
        rfl (beq_self_eq_true' _)
    · exact driftEntry_eq_none_of_equal (.strSlice none)
        (.strSlice (some [])) rfl (by decide)
    · exact driftEntry_eq_none_of_equal (.strMap none) (.strMap (some []))
        rfl (by decide)
    · exact driftEntry_eq_none_of_equal (.str i.keyName) (.str i.keyName)
        rfl (beq_self_eq_true' _)
    · exact driftEntry_eq_none_of_equal (.bool i.ebsOptimized)
        (.bool i.ebsOptimized) rfl (beq_self_eq_true' _)
    · exact driftEntry_eq_none_of_equal (.bool i.monitoring)
        (.bool i.monitoring) rfl (beq_self_eq_true' _)
    · exact driftEntry_eq_none_of_equal (.str i.iamInstanceProfile)
        (.str i.iamInstanceProfile) rfl (beq_self_eq_true' _)
    · exact driftEntry_eq_none_of_equal (.int i.rootBlockDevice.volumeSize)
        (.int i.rootBlockDevice.volumeSize) rfl (beq_self_eq_true' _)
    · exact driftEntry_eq_none_of_equal (.str i.rootBlockDevice.volumeType)
        (.str i.rootBlockDevice.volumeType) rfl (beq_self_eq_true' _)
    · exact driftEntry_eq_none_of_equal (.bool i.rootBlockDevice.encrypted)
        (.bool i.rootBlockDevice.encrypted) rfl (beq_self_eq_true' _)
  simp [hnil]

/-- C5: the equality engine judges two string lists equal exactly when
they carry the same multiset of elements (order-insensitive, duplicates
counted); in particular `["sg-a","sg-b"]` equals `["sg-b","sg-a"]` and
`["sg-a","sg-b"]` does not equal `["sg-a"]`. -/
theorem equality_engine_slices_multiset (a b : Option (List String)) :
    (valuesEqual (.strSlice a) (.strSlice b) = true ↔
      (goSliceElems a).Perm (goSliceElems b)) ∧
    valuesEqual (.strSlice (some ["sg-a", "sg-b"]))
      (.strSlice (some ["sg-b", "sg-a"])) = true ∧
    valuesEqual (.strSlice (some ["sg-a", "sg-b"]))
      (.strSlice (some ["sg-a"])) = false := by
  refine ⟨?_, by decide, by decide⟩
  haveI : IsTotal String goStrLE := ⟨fun a b => charListLE_total a.data b.data⟩
  haveI : IsTrans String goStrLE :=
    ⟨fun a b c h1 h2 => charListLE_trans a.data b.data c.data h1 h2⟩
  haveI : IsAntisymm String goStrLE :=
    ⟨fun a b h1 h2 => congrArg String.mk (charListLE_antisymm a.data b.data h1 h2)⟩
  show (if (goSliceElems a).length ≠ (goSliceElems b).length then false
        else (List.insertionSort goStrLE (goSliceElems a)
              == List.insertionSort goStrLE (goSliceElems b))) = true ↔ _
  by_cases hl : (goSliceElems a).length = (goSliceElems b).length
  · rw [if_neg (not_not_intro hl), beq_iff_eq]
    constructor
    · intro hs
      have h1 : (goSliceElems a).Perm
          (List.insertionSort goStrLE (goSliceElems a)) :=
        (List.perm_insertionSort _ _).symm
      rw [hs] at h1
      exact h1.trans (List.perm_insertionSort _ _)
    · intro hp
      exact List.eq_of_perm_of_sorted
        ((List.perm_insertionSort _ _).trans
          (hp.trans (List.perm_insertionSort _ _).symm))
        (List.sorted_insertionSort _ _) (List.sorted_insertionSort _ _)
  · rw [if_pos hl]
    constructor
    · intro h
      cases h
    · intro hp
      exact absurd hp.length_eq hl

/-- C1: for every attribute list, every cancellation state of the context
(including one already canceled before invocation), and every pair of
instance maps whose actual side is keyed by its records' identifiers,
`DetectMultiple` totally returns a report whose `totalInstances` is the
number of actual-state entries, whose result list has exactly one entry
per actual-state identifier, and whose every entry is a success, a
cancellation marker, or a not-found marker — the batch call itself never
fails (the embedding of `DetectMultiple` is a total function). -/
theorem detectMultiple_one_result_each (attrs : List String) (canceled : Bool)
    (awsInstances tfInstances : List (String × EC2Instance))
    (hnd : (awsInstances.map Prod.fst).Nodup)
    (hid : ∀ p ∈ awsInstances, p.2.instanceID = p.1) :
    (DetectMultiple attrs canceled awsInstances tfInstances).totalInstances
        = awsInstances.length ∧
    (DetectMultiple attrs canceled awsInstances tfInstances).results.length
        = awsInstances.length ∧
    (∀ id : String,
      (DetectMultiple attrs canceled awsInstances tfInstances).results.countP
          (fun r => r.instanceID == id)
        = if id ∈ awsInstances.map Prod.fst then 1 else 0) ∧
    ∀ r ∈ (DetectMultiple attrs canceled awsInstances tfInstances).results,
      r.error = "" ∨ r.error = "context canceled" ∨
        r.error = "instance not found in Terraform state" := by
  have hperm := detectMultiple_results_perm attrs canceled awsInstances
    tfInstances
  refine ⟨rfl, ?_, ?_, ?_⟩
  · rw [hperm.length_eq, List.length_map]
  · intro id
    rw [hperm.countP_eq, List.countP_map]
    have hcongr : awsInstances.countP
        ((fun r => r.instanceID == id) ∘ detectOne attrs canceled tfInstances)
        = awsInstances.countP (fun p => p.1 == id) := by
      apply List.countP_congr
      intro p hp
      simp only [Function.comp_apply]
      rw [detectOne_instanceID (hid p hp)]
    rw [hcongr]
    have hcount : awsInstances.countP (fun p => p.1 == id)
        = (awsInstances.map Prod.fst).count id := by
      rw [List.count_eq_countP, List.countP_map]
      rfl
    rw [hcount]
    by_cases hm : id ∈ awsInstances.map Prod.fst
    · rw [if_pos hm, List.count_eq_one_of_mem hnd hm]
    · rw [if_neg hm, List.count_eq_zero.mpr hm]
  · intro r hr
    obtain ⟨entry, hmem, rfl⟩ := List.mem_map.mp (hperm.mem_iff.mp hr)
    exact detectOne_error attrs canceled tfInstances entry

/-- Witness for C1 at the three-instance example with a context already
canceled before invocation. -/
theorem detectMultiple_one_result_each_witness :
    (DetectMultiple ["instance_type"] true exampleActual
        exampleDesired).totalInstances = 3 ∧
    (DetectMultiple ["instance_type"] true exampleActual
        exampleDesired).results.length = 3 ∧
    (DetectMultiple ["instance_type"] true exampleActual
        exampleDesired).results.countP
      (fun r => r.instanceID == "i-bbb") = 1 ∧
    (DetectMultiple ["instance_type"] true exampleActual
        exampleDesired).results.countP
      (fun r => r.instanceID == "i-zzz") = 0 := by
  have h := detectMultiple_one_result_each ["instance_type"] true
    exampleActual exampleDesired (by decide) (by decide)
  refine ⟨h.1.trans (by decide), h.2.1.trans (by decide), ?_, ?_⟩
  · rw [h.2.2.1 "i-bbb"]
    decide
  · rw [h.2.2.1 "i-zzz"]
    decide

/-- C7: every actual-state identifier with no counterpart in the desired
map yields a result with the drift flag forced true and the
"instance not found in Terraform state" error; the report's
drifted-instance count is the count of drift-flagged results, so that
entry makes it at least one. -/
theorem detectMultiple_not_found_flags_drift (attrs : List String)
    (awsInstances tfInstances : List (String × EC2Instance))
    (id : String) (aws : EC2Instance)
    (hmem : (id, aws) ∈ awsInstances)
    (hnf : goAssoc tfInstances id = none) :
    (⟨id, true, [], "instance not found in Terraform state"⟩ : DriftResult)
        ∈ (DetectMultiple attrs false awsInstances tfInstances).results ∧
    (DetectMultiple attrs false awsInstances tfInstances).driftedInstances
      = ((DetectMultiple attrs false awsInstances tfInstances).results.filter
          (·.hasDrift)).length ∧
    1 ≤ (DetectMultiple attrs false awsInstances
          tfInstances).driftedInstances := by
  have hperm := detectMultiple_results_perm attrs false awsInstances
    tfInstances
  have hone : detectOne attrs false tfInstances (id, aws)
      = ⟨id, true, [], "instance not found in Terraform state"⟩ := by
    unfold detectOne
    simp [hnf]
  have hin : (⟨id, true, [], "instance not found in Terraform state"⟩ :
      DriftResult) ∈ awsInstances.map (detectOne attrs false tfInstances) := by
    rw [← hone]
    exact List.mem_map_of_mem _ hmem
  refine ⟨hperm.mem_iff.mpr hin, ?_, ?_⟩
  · rw [detectMultiple_driftedCount, ← List.countP_eq_length_filter,
      hperm.countP_eq]
  · rw [detectMultiple_driftedCount]
    exact List.countP_pos_iff.mpr ⟨_, hin, rfl⟩

/-- Witness for C7: the spec's three-instance batch (one identical, one
differing, one absent) — total 3, drifted 2, and the absent identifier
carries a forced-drift not-found result. -/
theorem detectMultiple_not_found_flags_drift_witness :
    (⟨"i-ccc", true, [], "instance not found in Terraform state"⟩ :
        DriftResult)
      ∈ (DetectMultiple ["instance_type"] false exampleActual
          exampleDesired).results ∧
    1 ≤ (DetectMultiple ["instance_type"] false exampleActual
          exampleDesired).driftedInstances ∧
    (DetectMultiple ["instance_type"] false exampleActual
        exampleDesired).totalInstances = 3 ∧
    (DetectMultiple ["instance_type"] false exampleActual
        exampleDesired).driftedInstances = 2 := by
  have h := detectMultiple_not_found_flags_drift ["instance_type"]
    exampleActual exampleDesired "i-ccc" sampleInstAbsent (by decide)
    (by decide)
  exact ⟨h.1, h.2.2, by decide, by decide⟩

/-- C4: over any configured attribute list, if both records yield equal
values at every configured path then `Detect` reports no drift with an
empty drifted-attributes list; and if the records differ at exactly `k ≥ 1`
configured paths (extraction succeeding on both sides, values unequal),
`Detect` reports drift with exactly `k` drifted-attribute entries whose
paths are exactly the differing paths in configured-list order. -/
theorem detect_drift_characterization (attrs : List String)
    (aws tf : EC2Instance) :
    ((∀ attr ∈ attrs, ∃ av tv,
        getAttributeValues aws tf attr = .ok (av, tv) ∧
        valuesEqual av tv = true) →
      (Detect attrs aws tf).hasDrift = false ∧
      (Detect attrs aws tf).driftedAttrs = []) ∧
    (∀ k : Nat, 1 ≤ k → (attrs.filter (attrDrifts aws tf)).length = k →
      (Detect attrs aws tf).hasDrift = true ∧
      (Detect attrs aws tf).driftedAttrs.length = k ∧
      (Detect attrs aws tf).driftedAttrs.map DriftedAttr.path
        = attrs.filter (attrDrifts aws tf)) := by
  constructor
  · intro h
    have hnil : attrs.filterMap (driftEntry aws tf) = [] := by
      rw [List.filterMap_eq_nil_iff]
      intro attr hmem
      obtain ⟨av, tv, hok, hv⟩ := h attr hmem
      exact driftEntry_eq_none_of_equal av tv hok hv
    rw [Detect_eq]
    simp [hnil]
  · intro k hk hlen
    rw [Detect_eq]
    have hpaths := driftedAttrs_paths aws tf attrs
    have hlen2 : (attrs.filterMap (driftEntry aws tf)).length = k := by
      rw [← hlen, ← hpaths, List.length_map]
    refine ⟨?_, hlen2, hpaths⟩
    have hne : attrs.filterMap (driftEntry aws tf) ≠ [] := by
      intro he
      rw [he] at hlen2
      simp at hlen2
      omega
    simp [List.isEmpty_eq_false_iff_exists_mem, hne]

/-- Witness for C4: identical records give no drift; records differing
exactly at `instance_type` give drift with one entry naming it. -/
theorem detect_drift_characterization_witness :
    ((Detect ["instance_type", "ami"] sampleInst sampleInst).hasDrift
        = false ∧
     (Detect ["instance_type", "ami"] sampleInst sampleInst).driftedAttrs
        = []) ∧
    ((Detect ["instance_type", "ami"] sampleInst
        sampleInstDrifted).hasDrift = true ∧
     (Detect ["instance_type", "ami"] sampleInst
        sampleInstDrifted).driftedAttrs.length = 1 ∧
     (Detect ["instance_type", "ami"] sampleInst
        sampleInstDrifted).driftedAttrs.map DriftedAttr.path
       = List.filter (attrDrifts sampleInst sampleInstDrifted)
           ["instance_type", "ami"]) := by
  constructor
  · refine (detect_drift_characterization ["instance_type", "ami"]
      sampleInst sampleInst).1 ?_
    intro attr hmem
    rw [List.mem_cons, List.mem_singleton] at hmem
    rcases hmem with rfl | rfl
    · exact ⟨.str "t2.micro", .str "t2.micro", rfl, rfl⟩
    · exact ⟨.str "ami-1", .str "ami-1", rfl, rfl⟩
  · exact (detect_drift_characterization ["instance_type", "ami"]
      sampleInst sampleInstDrifted).2 1 (by decide) (by decide)

/-- C8: extraction with the empty path fails with the empty-path
(`InvalidPath`) error; a first segment matching no recognized field name
fails with the unknown-attribute error; an unrecognized
`root_block_device` sub-field fails with the unknown-block-device
error; and every recognized path extracts successfully. -/
theorem extract_value_contract (i : EC2Instance) :
    extractValue i [] = .error .emptyPath ∧
    (∀ s rest, fieldMapLookup s = none → s ≠ "root_block_device" →
      extractValue i (s :: rest) = .error (.unknownAttribute s)) ∧
    (∀ f rest, ¬ f ∈ blockDeviceFields →
      extractValue i ("root_block_device" :: f :: rest)
        = .error (.unknownBlockDeviceAttribute f)) ∧
    (∀ p, RecognizedPath p → ∃ v, extractValue i p = .ok v) := by
  refine ⟨rfl, ?_, ?_, ?_⟩
  · intro s rest h1 h2
    have hst : s ≠ "tags" := by
      intro he
      rw [he] at h1
      have h3 : (fieldMapLookup "tags").isSome = true := rfl
      rw [h1] at h3
      cases h3
    simp only [extractValue]
    rw [if_neg h2, if_neg (fun hc => hst hc.1), h1]
  · intro f rest hf
    have h6 : ¬(f = "volume_size") ∧ ¬(f = "volume_type") ∧
        ¬(f = "delete_on_termination") ∧ ¬(f = "encrypted") ∧
        ¬(f = "iops") ∧ ¬(f = "throughput") := by
      simpa [blockDeviceFields, not_or] using hf
    obtain ⟨h1, h2, h3, h4, h5, h6⟩ := h6
    simp only [extractValue]
    rw [if_pos trivial]
    simp only [extractBlockDeviceValue]
    rw [if_neg h1, if_neg h2, if_neg h3, if_neg h4, if_neg h5, if_neg h6]
  · intro p hp
    rcases hp with ⟨s, rfl, hs⟩ | rfl | ⟨k, rfl⟩ | ⟨f, rfl, hf⟩
    · by_cases hrbd : s = "root_block_device"
      · subst hrbd
        exact ⟨.blockDev i.rootBlockDevice, rfl⟩
      · obtain ⟨g, hg⟩ := Option.isSome_iff_exists.mp hs
        refine ⟨g i, ?_⟩
        simp only [extractValue]
        rw [if_neg hrbd, if_neg (fun hc => hc.2 rfl), hg]
    · exact ⟨.blockDev i.rootBlockDevice, rfl⟩
    · exact ⟨.str (goMapRead i.tags k), rfl⟩
    · have hf6 : f = "volume_size" ∨ f = "volume_type" ∨
          f = "delete_on_termination" ∨ f = "encrypted" ∨ f = "iops" ∨
          f = "throughput" := by
        simpa [blockDeviceFields] using hf
      rcases hf6 with rfl | rfl | rfl | rfl | rfl | rfl
      · exact ⟨.int i.rootBlockDevice.volumeSize, rfl⟩
      · exact ⟨.str i.rootBlockDevice.volumeType, rfl⟩
      · exact ⟨.bool i.rootBlockDevice.deleteOnTermination, rfl⟩
      · exact ⟨.bool i.rootBlockDevice.encrypted, rfl⟩
      · exact ⟨.int i.rootBlockDevice.iops, rfl⟩
      · exact ⟨.int i.rootBlockDevice.throughput, rfl⟩

/-- Witness for C8, including the spec's `VolumeSize=100` example. -/
theorem extract_value_contract_witness :
    extractValue sampleInst [] = .error .emptyPath ∧
    extractValue sampleInst ["bogus"] = .error (.unknownAttribute "bogus") ∧
    extractValue sampleInst ["root_block_device", "bogus"]
      = .error (.unknownBlockDeviceAttribute "bogus") ∧
    (∃ v, extractValue sampleInst ["root_block_device", "volume_size"]
        = .ok v) ∧
    extractValue sampleInst ["root_block_device", "volume_size"]
      = .ok (.int 100) := by
  refine ⟨(extract_value_contract sampleInst).1,
    (extract_value_contract sampleInst).2.1 "bogus" [] rfl (by decide),
    (extract_value_contract sampleInst).2.2.1 "bogus" [] (by decide),
    (extract_value_contract sampleInst).2.2.2
      ["root_block_device", "volume_size"]
      (Or.inr (Or.inr (Or.inr ⟨"volume_size", rfl, by decide⟩))),
    rfl⟩

/-- C9: extraction of the two-segment path `tags.<key>` never fails — an
absent key (or a nil tag map) reads as the empty string — so a side where
the tag is absent compares equal to a side where the tag is present with
an empty value, and a tag absent on both sides compares equal as well. -/
theorem tags_extraction_never_fails (i a b : EC2Instance) (k : String) :
    extractValue i ["tags", k] = .ok (.str (goMapRead i.tags k)) ∧
    (goAssoc (goMapEntries a.tags) k = none →
      goAssoc (goMapEntries b.tags) k = some "" →
      valuesEqual (.str (goMapRead a.tags k)) (.str (goMapRead b.tags k))
        = true) ∧
    (goAssoc (goMapEntries a.tags) k = none →
      goAssoc (goMapEntries b.tags) k = none →
      valuesEqual (.str (goMapRead a.tags k)) (.str (goMapRead b.tags k))
        = true) := by
  refine ⟨rfl, ?_, ?_⟩
  · intro ha hb
    rw [goMapRead_eq, goMapRead_eq, ha, hb]
    decide
  · intro ha hb
    rw [goMapRead_eq, goMapRead_eq, ha, hb]
    decide

/-- Witness for C9: a nil tag map on one side, `Env` present with an empty
value on the other. -/
theorem tags_extraction_never_fails_witness :
    extractValue tagAbsentInst ["tags", "Env"]
      = .ok (.str (goMapRead tagAbsentInst.tags "Env")) ∧
    valuesEqual (.str (goMapRead tagAbsentInst.tags "Env"))
      (.str (goMapRead tagEmptyInst.tags "Env")) = true := by
  have h := tags_extraction_never_fails tagAbsentInst tagAbsentInst
    tagEmptyInst "Env"
  exact ⟨h.1, h.2.1 (by decide) (by decide)⟩

/-- C6 counterexample: the map equality judges `{"k": ""}` equal to
`{"j": "x"}` although their key sets differ ("j" is bound only on the
right), and the judgment is not even symmetric — refuting "equal iff same
key set and same value for every key; an extra key on either side makes
them unequal". -/
theorem equality_engine_maps_counterexample :
    valuesEqual (.strMap (some [("k", "")])) (.strMap (some [("j", "x")]))
      = true ∧
    goAssoc [("k", "")] "j" = none ∧
    goAssoc [("j", "x")] "j" = some "x" ∧
    valuesEqual (.strMap (some [("j", "x")])) (.strMap (some [("k", "")]))
      = false := by
  decide

/-- C6 amended: for string maps with pairwise-distinct keys, equality is
judged true exactly when the sizes match and every binding of the left map
reads back (with absent keys defaulting to `""`) from the right map; when
no left-hand value is the empty string this coincides with the claimed
"same key set and same value for every key" — stated here as equality of
the two lookup functions.  (Left maps containing empty-string values can
compare equal to different-keyed maps of the same size, as the
counterexample shows.) -/
theorem equality_engine_maps_amended (a b : List (String × String))
    (hna : (a.map Prod.fst).Nodup) (hnb : (b.map Prod.fst).Nodup)
    (hne : ∀ kv ∈ a, kv.2 ≠ "") :
    valuesEqual (.strMap (some a)) (.strMap (some b)) = true ↔
      ∀ k, goAssoc a k = goAssoc b k := by
  show mapsEqual (some a) (some b) = true ↔ _
  have hdef : mapsEqual (some a) (some b)
      = (if a.length ≠ b.length then false
         else a.all fun kv => ((goAssoc b kv.1).getD "") == kv.2) := rfl
  rw [hdef]
  constructor
  · intro h
    by_cases hl : a.length = b.length
    case neg =>
      rw [if_pos hl] at h
      cases h
    rw [if_neg (not_not_intro hl), List.all_eq_true] at h
    have hsome : ∀ kv ∈ a, goAssoc b kv.1 = some kv.2 := by
      intro kv hkv
      have h2 := h kv hkv
      rw [beq_iff_eq] at h2
      cases hg : goAssoc b kv.1 with
      | none =>
        rw [hg] at h2
        exact absurd h2.symm (hne kv hkv)
      | some w =>
        rw [hg] at h2
        simp only [Option.getD_some] at h2
        rw [h2]
    have hcard : (a.map Prod.fst).toFinset = (b.map Prod.fst).toFinset := by
      apply Finset.eq_of_subset_of_card_le
      · intro k hk
        rw [List.mem_toFinset] at hk ⊢
        obtain ⟨kv, hkv, rfl⟩ := List.mem_map.mp hk
        rw [← goAssoc_isSome_iff, hsome kv hkv]
        rfl
      · rw [List.toFinset_card_of_nodup hnb, List.toFinset_card_of_nodup hna,
          List.length_map, List.length_map, hl]
    have hmemIff : ∀ k, k ∈ a.map Prod.fst ↔ k ∈ b.map Prod.fst := by
      intro k
      rw [← List.mem_toFinset, hcard, List.mem_toFinset]
    intro k
    by_cases hk : k ∈ a.map Prod.fst
    · obtain ⟨v, hv⟩ := Option.isSome_iff_exists.mp
        ((goAssoc_isSome_iff a k).mpr hk)
      rw [hv, hsome (k, v) (goAssoc_mem hv)]
    · rw [goAssoc_eq_none hk,
        goAssoc_eq_none (fun hb2 => hk ((hmemIff k).mpr hb2))]
  · intro h
    have hmemIff : ∀ k, k ∈ a.map Prod.fst ↔ k ∈ b.map Prod.fst := by
      intro k
      rw [← goAssoc_isSome_iff, ← goAssoc_isSome_iff, h k]
    have hperm : (a.map Prod.fst).Perm (b.map Prod.fst) :=
      (List.perm_ext_iff_of_nodup hna hnb).mpr hmemIff
    have hl : a.length = b.length := by
      have h2 := hperm.length_eq
      simpa using h2
    rw [if_neg (not_not_intro hl), List.all_eq_true]
    intro kv hkv
    have ha : goAssoc a kv.1 = some kv.2 :=
      goAssoc_eq_some_of_mem hna hkv
    rw [← h kv.1, ha]
    simp

/-- Witness for C6's amended statement: two-key maps with the same
bindings in different construction order are judged equal. -/
theorem equality_engine_maps_amended_witness :
    valuesEqual (.strMap (some [("Name", "x"), ("Env", "p")]))
      (.strMap (some [("Env", "p"), ("Name", "x")])) = true := by
  apply (equality_engine_maps_amended [("Name", "x"), ("Env", "p")]
    [("Env", "p"), ("Name", "x")] (by decide) (by decide) (by decide)).mpr
  intro k
  by_cases h1 : k = "Name"
  · subst h1
    decide
  · by_cases h2 : k = "Env"
    · subst h2
      decide
    · simp [goAssoc, h1, h2]

end DriftGo
